import Mathlib

/-!
Shallow embedding of the `headers-client` repository (Go) in Lean 4.

Modelled source files:
* `repository/dto` (DbBlockHeader, DbMerkleRootConfirmation and their
  conversions to the domain types),
* `config` (default application configuration),
* `database/database.go` (adapter selection, connect, migrations, init).

Go strings are modelled byte-for-byte as lists of character codes
(`GoStr`), Go `int32`/`int64` values as `Int` with explicit wraparound
where the source performs fixed-width arithmetic, `math/big.Int` as `Int`
with its decimal printing/parsing modelled explicitly, and fallible or
panicking code via `Option`/`Except`.
-/

/-- A Go string, modelled as the list of its character codes. -/
abbrev GoStr := List Nat

/-- `c` is an ASCII decimal digit (codes 48–57). -/
def isDecDigit (c : Nat) : Bool := 48 ≤ c && c ≤ 57

/-- Value of a big-endian list of ASCII decimal digit codes. -/
def decDigitsVal (l : GoStr) : Nat := l.foldl (fun a c => 10 * a + (c - 48)) 0

/-- Decimal rendering of a natural number as ASCII codes (`"0"` for zero),
as produced by Go `math/big` for non-negative values. -/
def natToDecimalChars (n : Nat) : GoStr :=
  if n = 0 then [48] else ((Nat.digits 10 n).reverse).map (fun d => 48 + d)

/-- Models Go `math/big` `Int.String`: base-10, minus sign for negatives. -/
def bigIntString (n : Int) : GoStr :=
  if n < 0 then 45 :: natToDecimalChars n.natAbs else natToDecimalChars n.natAbs

/-- Models Go `math/big` `Int.SetString` with base 10: optional leading
sign (`-` code 45, `+` code 43) followed by a non-empty run of decimal
digits; `none` models `ok = false`. -/
def bigIntSetString (s : GoStr) : Option Int :=
  match s with
  | [] => none
  | c :: rest =>
    if c = 45 then
      if rest.isEmpty then none
      else if rest.all isDecDigit then some (-(decDigitsVal rest : Int)) else none
    else if c = 43 then
      if rest.isEmpty then none
      else if rest.all isDecDigit then some ((decDigitsVal rest : Int)) else none
    else if (c :: rest).all isDecDigit then some ((decDigitsVal (c :: rest) : Int)) else none

/-- Modelled from the spec: the repository's `chainhash` package (not under
`src/`) renders a 32-byte hash in the Bitcoin display convention, as the
lowercase hex string of the byte-reversed hash. `d` below is a hex digit. -/
def hexDigitChar (d : Nat) : Nat := if d < 10 then 48 + d else 87 + d

/-- Modelled from the spec: two lowercase hex digit codes for one byte. -/
def byteToHex (b : Nat) : GoStr := [hexDigitChar (b / 16), hexDigitChar (b % 16)]

/-- Modelled from the spec: `chainhash.Hash.String` — hex encoding of the
byte-reversed 32-byte hash. A hash is a list of 32 byte values. -/
def hashString (h : List Nat) : GoStr := (h.reverse.map byteToHex).flatten

/-- Modelled from the spec: value of one hex digit code (accepting the
digits, lowercase and uppercase letters), `none` on a non-hex character. -/
def hexCharVal (c : Nat) : Option Nat :=
  if 48 ≤ c && c ≤ 57 then some (c - 48)
  else if 97 ≤ c && c ≤ 102 then some (c - 87)
  else if 65 ≤ c && c ≤ 70 then some (c - 55)
  else none

/-- Modelled from the spec: hex-decode an even-length string to bytes. -/
def hexDecodePairs : GoStr → Option (List Nat)
  | [] => some []
  | c1 :: c2 :: rest =>
    match hexCharVal c1, hexCharVal c2, hexDecodePairs rest with
    | some hi, some lo, some t => some ((16 * hi + lo) :: t)
    | _, _, _ => none
  | [_] => none

/-- Modelled from the spec: `chainhash.NewHashFromStr` — rejects strings
longer than 64 characters, left-pads odd-length strings with `'0'`,
hex-decodes, reverses the bytes and zero-pads up to 32 bytes; `none`
models the error return (whose pointer result is nil). -/
def hashFromStr (s : GoStr) : Option (List Nat) :=
  if s.length > 64 then none
  else
    match hexDecodePairs (if s.length % 2 = 1 then 48 :: s else s) with
    | none => none
    | some bytes => some (bytes.reverse ++ List.replicate (32 - bytes.length) 0)

/-- `domains.BlockHeader` (big-integer work fields as `Int`, hashes as byte
lists, `HeaderState` and `time.Time` carried opaquely as `GoStr`/`Int`). -/
structure BlockHeader where
  Height : Int
  Hash : List Nat
  Version : Int
  MerkleRoot : List Nat
  Timestamp : Int
  Bits : Nat
  Nonce : Nat
  Chainwork : Int
  CumulatedWork : Int
  State : GoStr
  PreviousBlock : List Nat
deriving DecidableEq

/-- `dto.DbBlockHeader`: header as saved in the database, work fields and
hashes as strings. -/
structure DbBlockHeader where
  Height : Int
  Hash : GoStr
  Version : Int
  MerkleRoot : GoStr
  Timestamp : Int
  Bits : Nat
  Nonce : Nat
  State : GoStr
  Chainwork : GoStr
  CumulatedWork : GoStr
  PreviousBlock : GoStr
deriving DecidableEq

/-- `dto.DbBlockHeader.ToBlockHeader`: replaces an empty `CumulatedWork`
by `"0"`, parses both work strings base 10 falling back to `0` when
parsing fails, and parses the three hash strings, discarding the error
results. The Go code unconditionally dereferences the returned pointers,
so a failed hash parse is a nil-pointer dereference; `none` models that
panic. -/
def DbBlockHeader.ToBlockHeader (dbh : DbBlockHeader) : Option BlockHeader :=
  let cwStr := if dbh.CumulatedWork = ([] : GoStr) then ([48] : GoStr) else dbh.CumulatedWork
  let cumulatedWork := (bigIntSetString cwStr).getD 0
  let chainWork := (bigIntSetString dbh.Chainwork).getD 0
  match hashFromStr dbh.Hash, hashFromStr dbh.MerkleRoot, hashFromStr dbh.PreviousBlock with
  | some hash, some merkleTree, some prevBlock =>
    some { Height := dbh.Height, Hash := hash, Version := dbh.Version,
           MerkleRoot := merkleTree, Timestamp := dbh.Timestamp, Bits := dbh.Bits,
           Nonce := dbh.Nonce, Chainwork := chainWork, CumulatedWork := cumulatedWork,
           State := dbh.State, PreviousBlock := prevBlock }
  | _, _, _ => none

/-- `dto.ToDbBlockHeader`: serializes hashes via `chainhash.Hash.String`
and the work fields via `big.Int.String` (base-10 decimal). -/
def ToDbBlockHeader (bh : BlockHeader) : DbBlockHeader :=
  { Height := bh.Height, Hash := hashString bh.Hash, Version := bh.Version,
    MerkleRoot := hashString bh.MerkleRoot, Timestamp := bh.Timestamp,
    Bits := bh.Bits, Nonce := bh.Nonce, State := bh.State,
    Chainwork := bigIntString bh.Chainwork,
    CumulatedWork := bigIntString bh.CumulatedWork,
    PreviousBlock := hashString bh.PreviousBlock }

/-- `dto.ConvertToBlockHeader`'s loop body over a list of records, in
order; `none` models the propagated panic of `ToBlockHeader`. -/
def convertEach : List DbBlockHeader → Option (List BlockHeader)
  | [] => some []
  | h :: t =>
    match DbBlockHeader.ToBlockHeader h, convertEach t with
    | some b, some bs => some (b :: bs)
    | _, _ => none

/-- `dto.ConvertToBlockHeader`. A Go slice is `Option (List _)` with
`none` for the nil slice. For a nil input the function returns nil; for a
non-nil input it appends the converted records to a nil slice, so an
empty input also yields nil. The outer `Option` models the panic of
`ToBlockHeader`. -/
def ConvertToBlockHeader (dbBlockHeaders : Option (List DbBlockHeader)) :
    Option (Option (List BlockHeader)) :=
  match dbBlockHeaders with
  | some l =>
    match convertEach l with
    | some bs => some (if bs.isEmpty then none else some bs)
    | none => none
  | none => some none

/-- Go `database/sql.NullString`: a string plus a validity flag. -/
structure NullString where
  String : GoStr
  Valid : Bool
deriving DecidableEq

/-- Modelled from the spec: the three Merkle-root confirmation states of
`domains` (not under `src/`): `Confirmed`, `UnableToVerify`, `Invalid`. -/
inductive MerkleRootConfirmationState where
  | Confirmed
  | UnableToVerify
  | Invalid
deriving DecidableEq

/-- `domains.MerkleRootConfirmation` as constructed by the DTO layer. -/
structure MerkleRootConfirmation where
  MerkleRoot : GoStr
  BlockHeight : Int
  Hash : GoStr
  Confirmation : MerkleRootConfirmationState
deriving DecidableEq

/-- `dto.DbMerkleRootConfirmation`: database row for a Merkle-root
confirmation query; `BlockHeight` and `TipHeight` are Go `int32` values. -/
structure DbMerkleRootConfirmation where
  MerkleRoot : GoStr
  BlockHeight : Int
  Hash : NullString
  TipHeight : Int
deriving DecidableEq

/-- Wraparound of Go `int32` conversion/arithmetic: reduce into
`[-2^31, 2^31)`. Truncating a wider Go integer to `int32` keeps the value
modulo `2^32`, so composing mathematical arithmetic with `wrap32` is
exact. -/
def wrap32 (x : Int) : Int := (x + 2 ^ 31) % 2 ^ 32 - 2 ^ 31

/-- `dto.DbMerkleRootConfirmation.ToMerkleRootConfirmation`: `Confirmed`
when the stored hash is valid (non-NULL); else `UnableToVerify` when
`BlockHeight > TipHeight` and the `int32` difference is below
`int32(maxBlockHeightExcess+1)`; else `Invalid`. The subtraction and the
conversion of `maxBlockHeightExcess+1` are fixed-width, hence `wrap32`. -/
def DbMerkleRootConfirmation.ToMerkleRootConfirmation
    (dbMerkleConfm : DbMerkleRootConfirmation) (maxBlockHeightExcess : Int) :
    MerkleRootConfirmation :=
  let confmState :=
    if dbMerkleConfm.Hash.Valid then MerkleRootConfirmationState.Confirmed
    else if dbMerkleConfm.BlockHeight > dbMerkleConfm.TipHeight ∧
        wrap32 (dbMerkleConfm.BlockHeight - dbMerkleConfm.TipHeight) <
          wrap32 (maxBlockHeightExcess + 1) then
      MerkleRootConfirmationState.UnableToVerify
    else MerkleRootConfirmationState.Invalid
  { MerkleRoot := dbMerkleConfm.MerkleRoot,
    BlockHeight := dbMerkleConfm.BlockHeight,
    Hash := dbMerkleConfm.Hash.String,
    Confirmation := confmState }

/-- `dto.ConvertToMerkleRootsConfirmations`: starts from a non-nil empty
slice (`make(..., 0)`) and appends one converted record per input, so the
result is never nil; iterating a nil input slice runs zero iterations. -/
def ConvertToMerkleRootsConfirmations
    (dbMerkleConfms : Option (List DbMerkleRootConfirmation))
    (maxBlockHeightExcess : Int) : Option (List MerkleRootConfirmation) :=
  some ((dbMerkleConfms.getD []).map
    (fun m => m.ToMerkleRootConfirmation maxBlockHeightExcess))

/-- Go `time.Duration` (int64 nanoseconds): one hour. -/
def goHour : Int := 3600 * 1000000000

/-- Go `time.Duration` (int64 nanoseconds): one millisecond. -/
def goMillisecond : Int := 1000000

/-- `config.DbConfig`. The Go field `Type` is `dbType` here (`Type` is a
Lean keyword). -/
structure DbConfig where
  dbType : String
  FilePath : String
  Dsn : String
  SchemaPath : String
  PreparedDb : Bool
  PreparedDbFilePath : String
deriving DecidableEq

/-- `config.DBSqlite`. -/
def DBSqlite : String := "sqlite"

/-- `config.HTTPConfig`. -/
structure HTTPConfig where
  ReadTimeout : Int
  WriteTimeout : Int
  Port : Int
  UrlPrefix : String
  UseAuth : Bool
  AuthToken : String
deriving DecidableEq

/-- `config.MerkleRootConfig`. -/
structure MerkleRootConfig where
  MaxBlockHeightExcess : Int
deriving DecidableEq

/-- `config.WebsocketConfig`. -/
structure WebsocketConfig where
  HistoryMax : Int
  HistoryTTL : Int
deriving DecidableEq

/-- `config.WebhookConfig`. -/
structure WebhookConfig where
  MaxTries : Int
deriving DecidableEq

/-- `p2pconfig.Config` (duration fields in nanoseconds). -/
structure P2PConfig where
  LogLevel : String
  LogDir : String
  MaxPeers : Int
  MaxPeersPerIP : Int
  BanDuration : Int
  MinSyncPeerNetworkSpeed : Int
  ExcessiveBlockSize : Int
  TrickleInterval : Int
  BlocksForForkConfirmation : Int
deriving DecidableEq

/-- `config.AppConfig` (field names in lowerCamel to avoid clashing with
the Lean type names). -/
structure AppConfig where
  dbConfig : DbConfig
  httpConfig : HTTPConfig
  merkleRootConfig : MerkleRootConfig
  websocketConfig : WebsocketConfig
  webhookConfig : WebhookConfig
  p2pConfig : P2PConfig
deriving DecidableEq

/-- `config.getDbDefaults`. -/
def getDbDefaults : DbConfig :=
  { dbType := DBSqlite,
    FilePath := "./data/blockheaders.db",
    Dsn := "file:./data/blockheaders.db?_foreign_keys=true&pooling=true",
    SchemaPath := "./database/migrations",
    PreparedDb := false,
    PreparedDbFilePath := "./data/blockheaders.csv.gz" }

/-- `config.getAuthConfigDefaults`. -/
def getAuthConfigDefaults : HTTPConfig :=
  { ReadTimeout := 10, WriteTimeout := 10, Port := 8080,
    UrlPrefix := "/api/v1", UseAuth := true, AuthToken := "mQZQ6WmxURxWz5ch" }

/-- `config.getMerkleRootDefaults`. -/
def getMerkleRootDefaults : MerkleRootConfig :=
  { MaxBlockHeightExcess := 6 }

/-- `config.getWebsocketDefaults`. -/
def getWebsocketDefaults : WebsocketConfig :=
  { HistoryMax := 300, HistoryTTL := 10 }

/-- `config.getWebhookDefaults`. -/
def getWebhookDefaults : WebhookConfig :=
  { MaxTries := 10 }

/-- `config.getP2PDefaults` (`time.Hour * 24`, `50 * time.Millisecond`). -/
def getP2PDefaults : P2PConfig :=
  { LogLevel := "info", LogDir := "./logs", MaxPeers := 125,
    MaxPeersPerIP := 5, BanDuration := goHour * 24,
    MinSyncPeerNetworkSpeed := 51200, ExcessiveBlockSize := 128000000,
    TrickleInterval := 50 * goMillisecond, BlocksForForkConfirmation := 10 }

/-- `config.GetDefaultAppConfig`. -/
def GetDefaultAppConfig : AppConfig :=
  { dbConfig := getDbDefaults, httpConfig := getAuthConfigDefaults,
    merkleRootConfig := getMerkleRootDefaults,
    websocketConfig := getWebsocketDefaults,
    webhookConfig := getWebhookDefaults, p2pConfig := getP2PDefaults }

/-- Go error values in the database layer, carried as message strings. -/
abbrev GoError := String

/-- The concrete adapters behind `database.DBAdapter`; only the SQLite
adapter exists in the source. -/
inductive DBAdapterImpl where
  | SQLiteAdapter
deriving DecidableEq

/-- `database.NewDBAdapter`: switch on `cfg.Type`; only `config.DBSqlite`
is handled, every other type yields a nil adapter and an
`unsupported database type` error. -/
def NewDBAdapter (cfg : DbConfig) : Except GoError DBAdapterImpl :=
  if cfg.dbType = DBSqlite then Except.ok DBAdapterImpl.SQLiteAdapter
  else Except.error ("unsupported database type " ++ cfg.dbType)

/-- `database.Connect`, parameterized by the behaviour of the selected
adapter's `Connect` (external `sqlx` effect). -/
def Connect {DB : Type} (adapterConnect : DBAdapterImpl → DbConfig → Except GoError DB)
    (cfg : DbConfig) : Except GoError DB :=
  match NewDBAdapter cfg with
  | Except.error e => Except.error e
  | Except.ok adapter => adapterConnect adapter cfg

/-- `database.DoMigrations`, parameterized by the behaviour of the
selected adapter's `DoMigrations` (`none` = success, `some e` = error). -/
def DoMigrations {DB : Type}
    (adapterMigrations : DBAdapterImpl → DB → DbConfig → Option GoError)
    (db : DB) (cfg : DbConfig) : Option GoError :=
  match NewDBAdapter cfg with
  | Except.error e => some e
  | Except.ok adapter => adapterMigrations adapter db cfg

/-- Result of `database.Init`: the returned `(*sqlx.DB, error)` pair plus
an instrumentation flag recording whether `ImportHeaders` was called. -/
structure InitResult (DB : Type) where
  db : Option DB
  err : Option GoError
  importCalled : Bool
deriving DecidableEq

/-- `database.Init`: connect, migrate, then import headers only when
`cfg.DbConfig.PreparedDb` is set; each failure returns a nil handle with
that error. `ImportHeaders` is an external effect passed as an oracle. -/
def Init {DB : Type}
    (adapterConnect : DBAdapterImpl → DbConfig → Except GoError DB)
    (adapterMigrations : DBAdapterImpl → DB → DbConfig → Option GoError)
    (importHeaders : DB → AppConfig → Option GoError)
    (cfg : AppConfig) : InitResult DB :=
  match Connect adapterConnect cfg.dbConfig with
  | Except.error e => { db := none, err := some e, importCalled := false }
  | Except.ok db =>
    match DoMigrations adapterMigrations db cfg.dbConfig with
    | some e => { db := none, err := some e, importCalled := false }
    | none =>
      if cfg.dbConfig.PreparedDb then
        match importHeaders db cfg with
        | some e => { db := none, err := some e, importCalled := true }
        | none => { db := some db, err := none, importCalled := true }
      else { db := some db, err := none, importCalled := false }

/-- Concrete row with no stored hash, used against the large-excess case:
`BlockHeight = 1`, `TipHeight = 0`. -/
def mrootOverflowRec : DbMerkleRootConfirmation :=
  { MerkleRoot := [114], BlockHeight := 1,
    Hash := { String := [], Valid := false }, TipHeight := 0 }

/-- Concrete row with no stored hash, `BlockHeight = 5`, `TipHeight = 3`. -/
def mrootInRangeRec : DbMerkleRootConfirmation :=
  { MerkleRoot := [114], BlockHeight := 5,
    Hash := { String := [], Valid := false }, TipHeight := 3 }

/-- Concrete domain header with valid 32-byte hashes and non-negative
work values, for evaluating the DTO round trip. -/
def bhRoundTrip : BlockHeader :=
  { Height := 7, Hash := List.replicate 32 0, Version := 1,
    MerkleRoot := List.replicate 32 0, Timestamp := 1231006505,
    Bits := 486604799, Nonce := 2083236893, Chainwork := 17,
    CumulatedWork := 0, State := [76], PreviousBlock := List.replicate 32 0 }

/-- Concrete database header whose three hash strings all parse. -/
def dbhGoodHashes : DbBlockHeader :=
  { Height := 1, Hash := [97], Version := 1, MerkleRoot := [98], Timestamp := 0,
    Bits := 0, Nonce := 0, State := [], Chainwork := [49], CumulatedWork := [50],
    PreviousBlock := [99] }

/-- Concrete database header whose `Hash` string `"zz"` is not hex. -/
def dbhBadHash : DbBlockHeader :=
  { dbhGoodHashes with Hash := [122, 122] }

/-- Concrete database header with an empty `CumulatedWork` and a
non-numeric `Chainwork` (`"x"`), hash strings all valid. -/
def dbhBadWork : DbBlockHeader :=
  { Height := 2, Hash := [97], Version := 1, MerkleRoot := [98], Timestamp := 0,
    Bits := 0, Nonce := 0, State := [], Chainwork := [120], CumulatedWork := [],
    PreviousBlock := [99] }

/-- The domain header `dbhBadWork` converts to: both work fields fall
back to `0`; `"0a"`, `"0b"`, `"0c"` decode and zero-extend to 32 bytes. -/
def bhBadWork : BlockHeader :=
  { Height := 2, Hash := 10 :: List.replicate 31 0, Version := 1,
    MerkleRoot := 11 :: List.replicate 31 0, Timestamp := 0, Bits := 0,
    Nonce := 0, Chainwork := 0, CumulatedWork := 0, State := [],
    PreviousBlock := 12 :: List.replicate 31 0 }

/-- Concrete database header for the slice-conversion evaluation. -/
def dbhConvertElem : DbBlockHeader :=
  { Height := 3, Hash := [97], Version := 2, MerkleRoot := [98], Timestamp := 5,
    Bits := 1, Nonce := 4, State := [], Chainwork := [55], CumulatedWork := [56],
    PreviousBlock := [99] }

/-- The domain header `dbhConvertElem` converts to. -/
def bhConvertElem : BlockHeader :=
  { Height := 3, Hash := 10 :: List.replicate 31 0, Version := 2,
    MerkleRoot := 11 :: List.replicate 31 0, Timestamp := 5, Bits := 1,
    Nonce := 4, Chainwork := 7, CumulatedWork := 8, State := [],
    PreviousBlock := 12 :: List.replicate 31 0 }

/-- Adapter-connect oracle that always fails, over `Nat` handles. -/
def connectErrOracle : DBAdapterImpl → DbConfig → Except GoError Nat :=
  fun _ _ => Except.error "connect failed"

/-- Adapter-migrations oracle that always succeeds, over `Nat` handles. -/
def migrationsNoneOracle : DBAdapterImpl → Nat → DbConfig → Option GoError :=
  fun _ _ _ => none

/-- Import oracle that always succeeds, over `Nat` handles. -/
def importNoneOracle : Nat → AppConfig → Option GoError :=
  fun _ _ => none

/-- A configuration selecting an unsupported database type. -/
def cfgPostgres : DbConfig :=
  { getDbDefaults with dbType := "postgres" }

theorem foldl_decimal (l : List Nat) (a : Nat) :
    List.foldl (fun x d => 10 * x + d) a l = a * 10 ^ l.length + Nat.ofDigits 10 l.reverse := by
  induction l generalizing a with
  | nil => simp [Nat.ofDigits]
  | cons d t ih =>
    simp only [List.foldl_cons, List.length_cons, List.reverse_cons, ih, Nat.ofDigits_append]
    simp [Nat.ofDigits]
    ring

theorem decDigitsVal_map (l : List Nat) :
    decDigitsVal (l.map (fun d => 48 + d)) = Nat.ofDigits 10 l.reverse := by
  unfold decDigitsVal
  rw [List.foldl_map]
  have h : (fun (a : Nat) (d : Nat) => 10 * a + (48 + d - 48)) = fun a d => 10 * a + d := by
    funext a d
    simp
  rw [h, foldl_decimal]
  simp

theorem natToDecimalChars_ne_nil (n : Nat) : natToDecimalChars n ≠ [] := by
  unfold natToDecimalChars
  split
  · simp
  · next h =>
    simp only [ne_eq, List.map_eq_nil_iff, List.reverse_eq_nil_iff]
    exact Nat.digits_ne_nil_iff_ne_zero.mpr h

theorem natToDecimalChars_roundtrip (n : Nat) :
    bigIntSetString (natToDecimalChars n) = some (n : Int) := by
  by_cases h0 : n = 0
  · subst h0
    rfl
  · have hd : Nat.digits 10 n ≠ [] := Nat.digits_ne_nil_iff_ne_zero.mpr h0
    have hdr : (Nat.digits 10 n).reverse ≠ [] := by
      simpa using hd
    obtain ⟨x, xs, hx⟩ := List.exists_cons_of_ne_nil hdr
    have hlt : ∀ d ∈ Nat.digits 10 n, d < 10 := fun d hdm =>
      Nat.digits_lt_base (by norm_num) hdm
    have hmem : ∀ d ∈ (Nat.digits 10 n).reverse, d < 10 := by
      intro d hdm
      exact hlt d (List.mem_reverse.mp hdm)
    have hall : ((Nat.digits 10 n).reverse.map (fun d => 48 + d)).all isDecDigit = true := by
      rw [List.all_eq_true]
      intro c hc
      obtain ⟨d, hdm, rfl⟩ := List.mem_map.mp hc
      have := hmem d hdm
      simp only [isDecDigit, Bool.and_eq_true, decide_eq_true_eq]
      omega
    have hform : natToDecimalChars n = (48 + x) :: xs.map (fun d => 48 + d) := by
      unfold natToDecimalChars
      rw [if_neg h0, hx]
      rfl
    rw [hform]
    simp only [bigIntSetString]
    rw [if_neg (by omega : ¬(48 + x = 45)), if_neg (by omega : ¬(48 + x = 43))]
    have hall' : ((48 + x) :: xs.map (fun d => 48 + d)).all isDecDigit = true := by
      rw [← hform]
      unfold natToDecimalChars
      rw [if_neg h0, hx]
      simpa [hx] using hall
    rw [if_pos hall']
    have hvform : (48 + x) :: xs.map (fun d => 48 + d) = ((x :: xs).map (fun d => 48 + d)) := by
      rfl
    rw [hvform, ← hx, decDigitsVal_map]
    simp [Nat.ofDigits_digits]

theorem bigIntString_roundtrip (n : Int) (hn : 0 ≤ n) :
    bigIntSetString (bigIntString n) = some n := by
  unfold bigIntString
  rw [if_neg (not_lt.mpr hn), natToDecimalChars_roundtrip]
  rw [Int.natAbs_of_nonneg hn]

theorem bigIntString_ne_nil (n : Int) : bigIntString n ≠ [] := by
  unfold bigIntString
  split
  · simp
  · exact natToDecimalChars_ne_nil _

theorem wrap32_eq_self (x : Int) (h0 : -(2 ^ 31) ≤ x) (h1 : x < 2 ^ 31) :
    wrap32 x = x := by
  unfold wrap32
  omega

/-- C1 (amended): for in-range heights `0 ≤ TipHeight, BlockHeight < 2^31`
and `0 ≤ maxBlockHeightExcess ≤ 2^31 − 2`, `ToMerkleRootConfirmation`
returns `Confirmed` exactly when the stored hash is present; otherwise
`UnableToVerify` exactly when `BlockHeight > TipHeight` and
`BlockHeight − TipHeight ≤ maxBlockHeightExcess`, and `Invalid` in every
remaining case. Outside these ranges the `int32` conversion and
subtraction in the source wrap around and the unamended claim fails. -/
theorem merkle_confirmation_state_in_range
    (m : DbMerkleRootConfirmation) (maxE : Int)
    (hT0 : 0 ≤ m.TipHeight) (hT1 : m.TipHeight < 2 ^ 31)
    (hB0 : 0 ≤ m.BlockHeight) (hB1 : m.BlockHeight < 2 ^ 31)
    (hm0 : 0 ≤ maxE) (hm1 : maxE ≤ 2 ^ 31 - 2) :
    ((m.ToMerkleRootConfirmation maxE).Confirmation =
        MerkleRootConfirmationState.Confirmed ↔ m.Hash.Valid = true)
    ∧ (m.Hash.Valid = false →
        (((m.ToMerkleRootConfirmation maxE).Confirmation =
            MerkleRootConfirmationState.UnableToVerify) ↔
          (m.BlockHeight > m.TipHeight ∧ m.BlockHeight - m.TipHeight ≤ maxE))
        ∧ (((m.ToMerkleRootConfirmation maxE).Confirmation =
            MerkleRootConfirmationState.Invalid) ↔
          ¬(m.BlockHeight > m.TipHeight ∧ m.BlockHeight - m.TipHeight ≤ maxE))) := by
  have hw1 : wrap32 (m.BlockHeight - m.TipHeight) = m.BlockHeight - m.TipHeight :=
    wrap32_eq_self _ (by omega) (by omega)
  have hw2 : wrap32 (maxE + 1) = maxE + 1 :=
    wrap32_eq_self _ (by omega) (by omega)
  simp only [DbMerkleRootConfirmation.ToMerkleRootConfirmation, hw1, hw2]
  rcases hv : m.Hash.Valid with _ | _
  · simp only [hv, Bool.false_eq_true, if_false]
    refine ⟨?_, ?_⟩
    · constructor
      · intro h
        exfalso
        revert h
        split <;> simp
      · intro h
        exact absurd h (by simp)
    · intro _
      constructor
      · constructor
        · intro h
          by_contra hc
          rw [if_neg (by omega)] at h
          exact absurd h (by simp)
        · intro h
          rw [if_pos (by omega)]
      · constructor
        · intro h
          by_contra hc
          rw [if_pos (by omega)] at h
          exact absurd h (by simp)
        · intro h
          rw [if_neg (by omega)]
  · simp [hv]

/-- C1 witness: with no stored hash, `BlockHeight = 5`, `TipHeight = 3`
and `maxBlockHeightExcess = 6`, the conversion yields `UnableToVerify`. -/
theorem merkle_confirmation_state_in_range_witness :
    (mrootInRangeRec.ToMerkleRootConfirmation 6).Confirmation =
      MerkleRootConfirmationState.UnableToVerify :=
  (((merkle_confirmation_state_in_range mrootInRangeRec 6 (by decide) (by decide)
      (by decide) (by decide) (by decide) (by decide)).2 (by decide)).1).mpr (by decide)

/-- C1 counterexample: with no stored hash, `BlockHeight = 1`,
`TipHeight = 0` and `maxBlockHeightExcess = 2^31 − 1`, the claim demands
`UnableToVerify` (`1 > 0` and `1 − 0 ≤ 2^31 − 1`), but the source's
`int32(maxBlockHeightExcess+1)` wraps to `−2^31`, so the comparison fails
and the result is `Invalid`. -/
theorem merkle_confirmation_overflow_counterexample :
    mrootOverflowRec.Hash.Valid = false
    ∧ mrootOverflowRec.BlockHeight > mrootOverflowRec.TipHeight
    ∧ mrootOverflowRec.BlockHeight - mrootOverflowRec.TipHeight ≤ 2 ^ 31 - 1
    ∧ (mrootOverflowRec.ToMerkleRootConfirmation (2 ^ 31 - 1)).Confirmation =
        MerkleRootConfirmationState.Invalid
    ∧ (mrootOverflowRec.ToMerkleRootConfirmation (2 ^ 31 - 1)).Confirmation ≠
        MerkleRootConfirmationState.UnableToVerify := by
  decide

/-- C2: for a domain header whose work values are non-negative and whose
three hash byte-lists survive the string round trip, converting to a
database record and back (`ToBlockHeader ∘ ToDbBlockHeader`) restores the
header field-by-field; in particular the work fields are serialized as
base-10 decimal strings and parsed back (base 10) to equal values. -/
theorem toDbBlockHeader_roundtrip (bh : BlockHeader)
    (hcw : 0 ≤ bh.Chainwork) (hcu : 0 ≤ bh.CumulatedWork)
    (hh : hashFromStr (hashString bh.Hash) = some bh.Hash)
    (hm : hashFromStr (hashString bh.MerkleRoot) = some bh.MerkleRoot)
    (hp : hashFromStr (hashString bh.PreviousBlock) = some bh.PreviousBlock) :
    DbBlockHeader.ToBlockHeader (ToDbBlockHeader bh) = some bh := by
  unfold ToDbBlockHeader DbBlockHeader.ToBlockHeader
  simp only [hh, hm, hp, if_neg (bigIntString_ne_nil bh.CumulatedWork),
    bigIntString_roundtrip bh.Chainwork hcw, bigIntString_roundtrip bh.CumulatedWork hcu,
    Option.getD_some]

/-- C2 witness: the round trip evaluated on a concrete header with
`Chainwork = 17` and `CumulatedWork = 0`. -/
theorem toDbBlockHeader_roundtrip_witness :
    DbBlockHeader.ToBlockHeader (ToDbBlockHeader bhRoundTrip) = some bhRoundTrip :=
  toDbBlockHeader_roundtrip bhRoundTrip (by decide) (by decide) (by decide)
    (by decide) (by decide)

/-- C3: `Init` calls `ImportHeaders` iff `PreparedDb` is set and both
`Connect` and `DoMigrations` succeeded; each failing step makes `Init`
return a nil handle together with that step's error; and the default
configuration has `PreparedDb = false` and
`PreparedDbFilePath = "./data/blockheaders.csv.gz"`. -/
theorem init_contract {DB : Type}
    (ac : DBAdapterImpl → DbConfig → Except GoError DB)
    (am : DBAdapterImpl → DB → DbConfig → Option GoError)
    (imp : DB → AppConfig → Option GoError)
    (cfg : AppConfig) :
    ((Init ac am imp cfg).importCalled = true ↔
      (cfg.dbConfig.PreparedDb = true ∧
        ∃ db, Connect ac cfg.dbConfig = Except.ok db ∧
          DoMigrations am db cfg.dbConfig = none))
    ∧ (∀ e, Connect ac cfg.dbConfig = Except.error e →
        Init ac am imp cfg = { db := none, err := some e, importCalled := false })
    ∧ (∀ db e, Connect ac cfg.dbConfig = Except.ok db →
        DoMigrations am db cfg.dbConfig = some e →
        Init ac am imp cfg = { db := none, err := some e, importCalled := false })
    ∧ (∀ db e, Connect ac cfg.dbConfig = Except.ok db →
        DoMigrations am db cfg.dbConfig = none →
        cfg.dbConfig.PreparedDb = true → imp db cfg = some e →
        Init ac am imp cfg = { db := none, err := some e, importCalled := true })
    ∧ GetDefaultAppConfig.dbConfig.PreparedDb = false
    ∧ GetDefaultAppConfig.dbConfig.PreparedDbFilePath = "./data/blockheaders.csv.gz" := by
  refine ⟨?_, ?_, ?_, ?_, rfl, rfl⟩
  · unfold Init
    rcases hc : Connect ac cfg.dbConfig with e | db
    · simp [hc]
    · rcases hm : DoMigrations am db cfg.dbConfig with _ | e
      · by_cases hp : cfg.dbConfig.PreparedDb
        · rcases hi : imp db cfg with _ | e <;>
            simp [hc, hm, hp, hi]
        · simp [hc, hm, hp]
      · simp [hc, hm]
  · intro e hc
    unfold Init
    rw [hc]
  · intro db e hc hm
    unfold Init
    rw [hc]
    simp [hm]
  · intro db e hc hm hp hi
    unfold Init
    rw [hc]
    simp [hm, hp, hi]

/-- C3 witness: with a failing adapter connect, `Init` on the default
configuration returns a nil handle with that error and never imports. -/
theorem init_contract_witness :
    Init connectErrOracle migrationsNoneOracle importNoneOracle GetDefaultAppConfig
      = { db := none, err := some "connect failed", importCalled := false } :=
  (init_contract connectErrOracle migrationsNoneOracle importNoneOracle
    GetDefaultAppConfig).2.1 "connect failed" rfl

/-- C4: `NewDBAdapter` yields the SQLite adapter exactly when the
configured type is `config.DBSqlite` (`"sqlite"`); every other type gets
a nil adapter and an `unsupported database type` error, so `Connect` and
`DoMigrations` fail with that error for every non-sqlite configuration;
the default configuration selects sqlite. -/
theorem newDBAdapter_contract (cfg : DbConfig) :
    (cfg.dbType = DBSqlite →
        NewDBAdapter cfg = Except.ok DBAdapterImpl.SQLiteAdapter)
    ∧ (cfg.dbType ≠ DBSqlite →
        NewDBAdapter cfg = Except.error ("unsupported database type " ++ cfg.dbType))
    ∧ (∀ (DB : Type) (ac : DBAdapterImpl → DbConfig → Except GoError DB),
        cfg.dbType ≠ DBSqlite →
        Connect ac cfg = Except.error ("unsupported database type " ++ cfg.dbType))
    ∧ (∀ (DB : Type) (am : DBAdapterImpl → DB → DbConfig → Option GoError) (db : DB),
        cfg.dbType ≠ DBSqlite →
        DoMigrations am db cfg = some ("unsupported database type " ++ cfg.dbType))
    ∧ GetDefaultAppConfig.dbConfig.dbType = DBSqlite := by
  refine ⟨?_, ?_, ?_, ?_, rfl⟩
  · intro h
    unfold NewDBAdapter
    rw [if_pos h]
  · intro h
    unfold NewDBAdapter
    rw [if_neg h]
  · intro DB ac h
    unfold Connect NewDBAdapter
    rw [if_neg h]
  · intro DB am db h
    unfold DoMigrations NewDBAdapter
    rw [if_neg h]

/-- C4 witness: a `"postgres"` configuration is rejected by
`NewDBAdapter` and by `Connect`. -/
theorem newDBAdapter_contract_witness :
    NewDBAdapter cfgPostgres = Except.error "unsupported database type postgres"
    ∧ Connect connectErrOracle cfgPostgres =
        Except.error "unsupported database type postgres" :=
  ⟨(newDBAdapter_contract cfgPostgres).2.1 (by decide),
   (newDBAdapter_contract cfgPostgres).2.2.1 Nat connectErrOracle (by decide)⟩

/-- C5: the default application configuration sets `BanDuration` to 24
hours and `TrickleInterval` to 50 milliseconds (Go durations are int64
nanosecond counts). -/
theorem default_ban_and_trickle :
    GetDefaultAppConfig.p2pConfig.BanDuration = 24 * goHour
    ∧ GetDefaultAppConfig.p2pConfig.TrickleInterval = 50 * goMillisecond
    ∧ GetDefaultAppConfig.p2pConfig.BanDuration = 86400000000000
    ∧ GetDefaultAppConfig.p2pConfig.TrickleInterval = 50000000 := by
  refine ⟨?_, rfl, ?_, rfl⟩ <;> decide

/-- C6: `ToBlockHeader` is total (never hits the nil-pointer dereference)
whenever the `Hash`, `MerkleRoot` and `PreviousBlock` strings all parse,
and for a record whose `Hash` string is `"zz"` the discarded parse error
leaves a nil pointer and the conversion dereferences it (`none`). -/
theorem toBlockHeader_totality :
    (∀ dbh : DbBlockHeader,
        (hashFromStr dbh.Hash).isSome = true →
        (hashFromStr dbh.MerkleRoot).isSome = true →
        (hashFromStr dbh.PreviousBlock).isSome = true →
        (DbBlockHeader.ToBlockHeader dbh).isSome = true)
    ∧ DbBlockHeader.ToBlockHeader dbhBadHash = none := by
  constructor
  · intro dbh h1 h2 h3
    obtain ⟨a, ha⟩ := Option.isSome_iff_exists.mp h1
    obtain ⟨b, hb⟩ := Option.isSome_iff_exists.mp h2
    obtain ⟨c, hc⟩ := Option.isSome_iff_exists.mp h3
    unfold DbBlockHeader.ToBlockHeader
    rw [ha, hb, hc]
    rfl
  · decide

/-- C6 witness: the totality part evaluated on a concrete record whose
three hash strings all parse. -/
theorem toBlockHeader_totality_witness :
    (DbBlockHeader.ToBlockHeader dbhGoodHashes).isSome = true :=
  toBlockHeader_totality.1 dbhGoodHashes (by decide) (by decide) (by decide)

/-- C7: whenever `ToBlockHeader` returns a header, an empty or non-numeric
`CumulatedWork` string and a non-numeric `Chainwork` string are silently
replaced by the numeric value 0 (the empty `CumulatedWork` is rewritten
to `"0"` first; a failed base-10 parse falls back to `big.NewInt(0)`). -/
theorem toBlockHeader_work_fallback (dbh : DbBlockHeader) (bh : BlockHeader)
    (h : DbBlockHeader.ToBlockHeader dbh = some bh) :
    (bigIntSetString dbh.CumulatedWork = none → bh.CumulatedWork = 0)
    ∧ (bigIntSetString dbh.Chainwork = none → bh.Chainwork = 0) := by
  unfold DbBlockHeader.ToBlockHeader at h
  rcases o1 : hashFromStr dbh.Hash with _ | a
  · rw [o1] at h
    simp at h
  rcases o2 : hashFromStr dbh.MerkleRoot with _ | b
  · rw [o1, o2] at h
    simp at h
  rcases o3 : hashFromStr dbh.PreviousBlock with _ | c
  · rw [o1, o2, o3] at h
    simp at h
  rw [o1, o2, o3] at h
  simp only [Option.some.injEq] at h
  subst h
  constructor
  · intro hcu
    by_cases hemp : dbh.CumulatedWork = ([] : GoStr)
    · simp [hemp]
      decide
    · simp [hemp, hcu]
  · intro hcw
    simp [hcw]

/-- C7 witness: the fallback evaluated on a record with empty
`CumulatedWork` and `Chainwork = "x"`: both work fields come out 0. -/
theorem toBlockHeader_work_fallback_witness :
    bhBadWork.CumulatedWork = 0 ∧ bhBadWork.Chainwork = 0 :=
  ⟨(toBlockHeader_work_fallback dbhBadWork bhBadWork (by decide)).1 (by decide),
   (toBlockHeader_work_fallback dbhBadWork bhBadWork (by decide)).2 (by decide)⟩

theorem convertEach_spec (l : List DbBlockHeader) (bs : List BlockHeader)
    (h : convertEach l = some bs) :
    bs.length = l.length ∧
    ∀ (i : Nat) (hi : i < l.length) (hb : i < bs.length),
      DbBlockHeader.ToBlockHeader (l.get ⟨i, hi⟩) = some (bs.get ⟨i, hb⟩) := by
  induction l generalizing bs with
  | nil =>
    unfold convertEach at h
    simp only [Option.some.injEq] at h
    subst h
    refine ⟨rfl, ?_⟩
    intro i hi hb
    exact absurd hi (by simp)
  | cons hd tl ih =>
    unfold convertEach at h
    rcases o1 : DbBlockHeader.ToBlockHeader hd with _ | b
    · rw [o1] at h
      simp at h
    rcases o2 : convertEach tl with _ | bs'
    · rw [o1, o2] at h
      simp at h
    rw [o1, o2] at h
    simp only [Option.some.injEq] at h
    subst h
    obtain ⟨hlen, hget⟩ := ih bs' o2
    refine ⟨by simp [hlen], ?_⟩
    intro i hi hb
    cases i with
    | zero => simpa using o1
    | succ j =>
      simpa using hget j (by simpa using hi) (by simpa using hb)

/-- C8: `ConvertToBlockHeader` returns nil for a nil input slice, and for
a non-nil input whose elements all convert it applies `ToBlockHeader`
elementwise, preserving order and length (an empty input yields the nil
result of appending nothing); `ConvertToMerkleRootsConfirmations` always
returns a non-nil slice — empty for a nil or empty input — obtained by
converting elementwise in order. -/
theorem convert_slices_contract :
    ConvertToBlockHeader none = some none
    ∧ (∀ (l : List DbBlockHeader) (bs : List BlockHeader),
        convertEach l = some bs →
        ConvertToBlockHeader (some l) = some (if bs.isEmpty then none else some bs)
        ∧ bs.length = l.length
        ∧ ∀ (i : Nat) (hi : i < l.length) (hb : i < bs.length),
            DbBlockHeader.ToBlockHeader (l.get ⟨i, hi⟩) = some (bs.get ⟨i, hb⟩))
    ∧ (∀ (dbs : Option (List DbMerkleRootConfirmation)) (maxE : Int),
        ConvertToMerkleRootsConfirmations dbs maxE =
          some ((dbs.getD []).map (fun mrec => mrec.ToMerkleRootConfirmation maxE))
        ∧ ConvertToMerkleRootsConfirmations dbs maxE ≠ none
        ∧ ∀ (res : List MerkleRootConfirmation),
            ConvertToMerkleRootsConfirmations dbs maxE = some res →
            res.length = (dbs.getD []).length) := by
  refine ⟨rfl, ?_, ?_⟩
  · intro l bs h
    refine ⟨?_, convertEach_spec l bs h⟩
    simp only [ConvertToBlockHeader]
    rw [h]
  · intro dbs maxE
    refine ⟨rfl, by simp [ConvertToMerkleRootsConfirmations], ?_⟩
    intro res hres
    unfold ConvertToMerkleRootsConfirmations at hres
    simp only [Option.some.injEq] at hres
    subst hres
    simp

/-- C8 witness: a one-element non-nil slice converts elementwise, and a
nil slice of Merkle confirmation rows yields the non-nil empty slice. -/
theorem convert_slices_contract_witness :
    ConvertToBlockHeader (some [dbhConvertElem]) = some (some [bhConvertElem])
    ∧ ConvertToMerkleRootsConfirmations none 6 = some [] := by
  constructor
  · have h := (convert_slices_contract.2.1 [dbhConvertElem] [bhConvertElem] (by decide)).1
    simpa using h
  · exact (convert_slices_contract.2.2 none 6).1
